import Mathlib

/-!
Verification of the Secure Communication Protocol (SCP) implementation
(`protocol/src/protocol.js` and `protocol/src/crypto.js`).

Bytes are modelled as `Nat` list entries (a real buffer holds values below
256; where a claim needs that bound it appears as a hypothesis).  External
library primitives (AES-256-GCM, HMAC-SHA256, X25519) are modelled as
deterministic computable stand-ins that preserve the structural contract
the code relies on: the cipher is a length-preserving keystream XOR with a
16-byte deterministic tag, the MAC is a deterministic 32-byte digest, and
authenticated decryption fails whenever the tag does not match.  All code
of the repository itself (framing, header layout, HKDF structure, the
connection state machine) is translated statement by statement.
-/

namespace SCP

/-- Big-endian base-256 encoding of `n` on `k` bytes, as produced by the
`writeBigUInt64BE` / `writeUInt32BE` calls in `createMessageHeader`.
The JS calls throw on out-of-range input; the model instead encodes
`n mod 256^k`, and the round-trip theorems carry the range hypothesis. -/
def beBytes : Nat → Nat → List Nat
  | 0, _ => []
  | k + 1, n => beBytes k (n / 256) ++ [n % 256]

/-- Big-endian value of a byte list, as read by `readBigUInt64BE` /
`readUInt32BE`. -/
def beVal (l : List Nat) : Nat := l.foldl (fun a b => a * 256 + b) 0

/-- Index resolution of the JS `Buffer.slice` semantics: a negative index
counts from the end of the buffer, and the result is clamped to
`[0, length]`. -/
def jsIndex (len : Nat) (i : Int) : Nat :=
  if i < 0 then ((len : Int) + i).toNat else min i.toNat len

/-- `buf.slice(start, stop)` of Node buffers (ECMA slice semantics). -/
def jsSlice (buf : List Nat) (start stop : Int) : List Nat :=
  (buf.drop (jsIndex buf.length start)).take
    (jsIndex buf.length stop - jsIndex buf.length start)

/-- `buf.slice(start)` — slice to the end of the buffer. -/
def jsSliceFrom (buf : List Nat) (start : Int) : List Nat :=
  buf.drop (jsIndex buf.length start)

/-! ### Modelled cryptographic primitives

`crypto.js` delegates AES-256-GCM, HMAC-SHA256, HKDF-SHA256 and X25519 to
the Node `crypto` library.  The library primitives are modelled as
deterministic computable functions with the same input/output structure;
only the HKDF extract/expand skeleton (which `deriveKeys` relies on for
its 64-byte expansion) is spelled out from its definition. -/

/-- Deterministic mixing accumulator standing in for a cryptographic
digest state. -/
def mixHash (l : List Nat) : Nat :=
  l.foldl (fun a b => (a * 131 + b + 1) % (2 ^ 61)) 17

/-- Modelled HMAC-SHA256: `generateHMAC(data, key)` from `crypto.js`
returns a 32-byte tag. -/
def generateHMAC (data key : List Nat) : List Nat :=
  (List.range 32).map (fun i => (mixHash (key ++ data) + 37 * i) % 256)

/-- `verifyHMAC(data, key, expectedHMAC)` from `crypto.js`: recomputes the
tag and compares (the constant-time comparison of the source is
observationally plain equality; `timingSafeEqual` never diverges here
because the only call site passes two 32-byte buffers). -/
def verifyHMAC (data key expected : List Nat) : Bool :=
  generateHMAC data key = expected

/-- Modelled AES-256-GCM keystream byte at position `i` for `(key, iv)`. -/
def ksByte (key iv : List Nat) (i : Nat) : Nat :=
  (mixHash (key ++ iv) + 97 * i) % 256

/-- Keystream XOR starting at position `i` — the modelled GCM counter-mode
body.  Length-preserving and self-inverse, like the real cipher. -/
def xorKs (key iv : List Nat) : Nat → List Nat → List Nat
  | _, [] => []
  | i, b :: bs => (b ^^^ ksByte key iv i) :: xorKs key iv (i + 1) bs

/-- Modelled 128-bit GCM authentication tag over `(ciphertext, key, iv)`. -/
def gcmTag (ct key iv : List Nat) : List Nat :=
  (List.range 16).map (fun i => (mixHash (key ++ iv ++ ct) + 53 * i) % 256)

/-- `encrypt(plaintext, key, iv)` from `crypto.js`: returns the ciphertext,
the IV used and the authentication tag.  (The source draws a random
12-byte IV when none is supplied; the model receives the IV explicitly.) -/
def encrypt (plaintext key iv : List Nat) : List Nat × List Nat × List Nat :=
  (xorKs key iv 0 plaintext, iv, gcmTag (xorKs key iv 0 plaintext) key iv)

/-- `decrypt(encrypted, key, iv, tag)` from `crypto.js`: authenticated
decryption, failing (the source throws) when the tag does not verify;
no plaintext is produced on failure. -/
def decrypt (encrypted key iv tag : List Nat) : Option (List Nat) :=
  if gcmTag encrypted key iv = tag then some (xorKs key iv 0 encrypted) else none

/-- HKDF-SHA256 block `T(i)` (RFC 5869 expand step) over the modelled
HMAC. -/
def hkdfBlock (prk info : List Nat) : Nat → List Nat
  | 0 => []
  | i + 1 => generateHMAC (hkdfBlock prk info i ++ info ++ [i + 1]) prk

/-- HKDF-SHA256 output keying material of `len` bytes. -/
def hkdfOkm (prk info : List Nat) (len : Nat) : List Nat :=
  (((List.range ((len + 31) / 32)).map (fun i => hkdfBlock prk info (i + 1))).flatten).take len

/-- Modelled `crypto.hkdfSync('sha256', ikm, salt, info, len)`: extract
then expand. -/
def hkdfSync (ikm salt info : List Nat) (len : Nat) : List Nat :=
  hkdfOkm (generateHMAC ikm salt) info len

/-- `PROTOCOL_CONSTANTS.SALT` — the bytes of the fixed salt string. -/
def SALT : List Nat :=
  [83, 67, 80, 45, 80, 114, 111, 116, 111, 99, 111, 108, 45, 83, 97, 108,
   116, 45, 50, 48, 50, 52]

/-- `PROTOCOL_CONSTANTS.INFO` — the bytes of the fixed info string. -/
def INFO : List Nat :=
  [83, 67, 80, 45, 75, 101, 121, 45, 68, 101, 114, 105, 118, 97, 116,
   105, 111, 110]

/-- Session keys as produced by `deriveKeys`. -/
structure SessionKeys where
  encryptionKey : List Nat
  hmacKey : List Nat
deriving DecidableEq, Repr

/-- `deriveKeys(sharedSecret, salt, info)` from `crypto.js`: HKDF-SHA256
expansion to 64 bytes, first 32 bytes the encryption key, last 32 the
HMAC key. -/
def deriveKeys (sharedSecret salt info : List Nat) : SessionKeys :=
  { encryptionKey := (hkdfSync sharedSecret salt info 64).take 32
    hmacKey := (hkdfSync sharedSecret salt info 64).drop 32 }

/-- Modelled X25519 `deriveSharedSecret(privateKey, publicKey)` — an
external library primitive, stood in by a deterministic 32-byte digest. -/
def deriveSharedSecret (privateKey publicKey : List Nat) : List Nat :=
  generateHMAC publicKey privateKey

/-! ### Payload documents and their byte serialization

`createMessage` serializes the payload with `JSON.stringify` and
`parseMessage` recovers it with `JSON.parse`.  The payload is a structured
key-value document; per the wire contract any lossless byte encoding is
acceptable, so the model uses a direct length-delimited encoding of a JSON
value tree (strings and object keys carry their bytes verbatim). -/

mutual

inductive Json where
  | null : Json
  | bool : Bool → Json
  | num : Int → Json
  | str : List Nat → Json
  | arr : JsonList → Json
  | obj : JsonObj → Json

inductive JsonList where
  | nil : JsonList
  | cons : Json → JsonList → JsonList

inductive JsonObj where
  | nil : JsonObj
  | cons : List Nat → Json → JsonObj → JsonObj

end

/-- Unary length marker: `n` zero bytes then a one byte.  Trivially
lossless, which is all the wire format requires of the encoding. -/
def encNat (n : Nat) : List Nat := List.replicate n 0 ++ [1]

/-- Inverse of `encNat`, consuming a prefix of the stream. -/
def decNat : List Nat → Option (Nat × List Nat)
  | [] => none
  | b :: rest =>
    if b = 1 then some (0, rest)
    else if b = 0 then (decNat rest).map (fun p => (p.1 + 1, p.2))
    else none

/-- Split off an exact-length prefix, failing when the stream is too
short. -/
def splitTake (n : Nat) (l : List Nat) : Option (List Nat × List Nat) :=
  if n ≤ l.length then some (l.take n, l.drop n) else none

def listLen : JsonList → Nat
  | .nil => 0
  | .cons _ tl => listLen tl + 1

def objLen : JsonObj → Nat
  | .nil => 0
  | .cons _ _ tl => objLen tl + 1

mutual

/-- Serialization of a payload document to bytes (the model's
`JSON.stringify`). -/
def serJson : Json → List Nat
  | .null => [2]
  | .bool false => [3]
  | .bool true => [4]
  | .num (Int.ofNat n) => 5 :: encNat n
  | .num (Int.negSucc n) => 6 :: encNat n
  | .str s => 7 :: (encNat s.length ++ s)
  | .arr l => 8 :: (encNat (listLen l) ++ serList l)
  | .obj o => 9 :: (encNat (objLen o) ++ serObj o)

def serList : JsonList → List Nat
  | .nil => []
  | .cons j tl => serJson j ++ serList tl

def serObj : JsonObj → List Nat
  | .nil => []
  | .cons k v tl => encNat k.length ++ k ++ serJson v ++ serObj tl

end

mutual

/-- Node count of a document: fuel needed by the decoder. -/
def sizeJ : Json → Nat
  | .null => 1
  | .bool _ => 1
  | .num _ => 1
  | .str _ => 1
  | .arr l => sizeL l + 1
  | .obj o => sizeO o + 1

def sizeL : JsonList → Nat
  | .nil => 0
  | .cons j tl => sizeJ j + sizeL tl + 1

def sizeO : JsonObj → Nat
  | .nil => 0
  | .cons _ v tl => sizeJ v + sizeO tl + 1

end

mutual

/-- Fuel-indexed decoder for `serJson` (the model's `JSON.parse`),
consuming a prefix of the stream. -/
def deJson : Nat → List Nat → Option (Json × List Nat)
  | 0, _ => none
  | _ + 1, [] => none
  | fuel + 1, b :: r =>
    if b = 2 then some (.null, r)
    else if b = 3 then some (.bool false, r)
    else if b = 4 then some (.bool true, r)
    else if b = 5 then (decNat r).map (fun p => (.num (Int.ofNat p.1), p.2))
    else if b = 6 then (decNat r).map (fun p => (.num (Int.negSucc p.1), p.2))
    else if b = 7 then
      (decNat r).bind (fun p =>
        (splitTake p.1 p.2).map (fun q => (.str q.1, q.2)))
    else if b = 8 then
      (decNat r).bind (fun p =>
        (deList fuel p.1 p.2).map (fun q => (.arr q.1, q.2)))
    else if b = 9 then
      (decNat r).bind (fun p =>
        (deObj fuel p.1 p.2).map (fun q => (.obj q.1, q.2)))
    else none

def deList : Nat → Nat → List Nat → Option (JsonList × List Nat)
  | _, 0, input => some (.nil, input)
  | 0, _ + 1, _ => none
  | fuel + 1, n + 1, input =>
    (deJson fuel input).bind (fun p =>
      (deList fuel n p.2).map (fun q => (.cons p.1 q.1, q.2)))

def deObj : Nat → Nat → List Nat → Option (JsonObj × List Nat)
  | _, 0, input => some (.nil, input)
  | 0, _ + 1, _ => none
  | fuel + 1, n + 1, input =>
    (decNat input).bind (fun p =>
      (splitTake p.1 p.2).bind (fun q =>
        (deJson fuel q.2).bind (fun v =>
          (deObj fuel n v.2).map (fun tl => (.cons q.1 v.1 tl.1, tl.2)))))

end

/-- Top-level document parse: decode and require the whole stream to be
consumed, exactly as `JSON.parse` rejects trailing input. -/
def parseJson (l : List Nat) : Option Json :=
  match deJson (l.length + 1) l with
  | some (j, []) => some j
  | _ => none

/-! ### The wire frame codec (`createMessage` / `parseMessage`) -/

/-- `PROTOCOL_CONSTANTS.VERSION`. -/
def VERSION : Nat := 1

/-- Parsed message header: {version: u8, messageType: u8,
sequenceNumber: u64, payloadLength: u32}. -/
structure MessageHeader where
  version : Nat
  messageType : Nat
  sequenceNumber : Nat
  payloadLength : Nat
deriving DecidableEq, Repr

/-- `createMessageHeader(messageType, sequenceNumber, payloadLength)` from
`crypto.js`: the fixed 14-byte big-endian layout
version ‖ type ‖ seq(8B) ‖ length(4B). -/
def createMessageHeader (messageType sequenceNumber payloadLength : Nat) : List Nat :=
  [VERSION, messageType] ++ beBytes 8 sequenceNumber ++ beBytes 4 payloadLength

/-- `parseMessageHeader(headerBuffer)` from `crypto.js`; fails when fewer
than 14 bytes are available. -/
def parseMessageHeader (headerBuffer : List Nat) : Option MessageHeader :=
  if headerBuffer.length < 14 then none
  else some
    { version := headerBuffer.getD 0 0
      messageType := headerBuffer.getD 1 0
      sequenceNumber := beVal ((headerBuffer.drop 2).take 8)
      payloadLength := beVal ((headerBuffer.drop 10).take 4) }

/-- Parse failures of `parseMessage`, named by the error taxonomy. -/
inductive ParseErr where
  | tooShort
  | authenticationFailed
  | invalidHeader
  | decryptionFailed
  | decodeError
deriving DecidableEq, Repr

/-- `createMessage(messageType, sequenceNumber, payload, encryptionKey,
hmacKey)` from `crypto.js`.  The 12-byte random IV drawn inside `encrypt`
is passed explicitly.  Layout: header ‖ iv ‖ ciphertext ‖ tag ‖ hmac, the
HMAC taken over everything preceding it. -/
def createMessage (messageType sequenceNumber : Nat) (payload : Json)
    (encryptionKey hmacKey iv : List Nat) : List Nat :=
  let payloadBuffer := serJson payload
  let header := createMessageHeader messageType sequenceNumber payloadBuffer.length
  let encryptedData := encrypt payloadBuffer encryptionKey iv
  let messageBody := encryptedData.2.1 ++ encryptedData.1 ++ encryptedData.2.2
  let hmacData := header ++ messageBody
  let hmac := generateHMAC hmacData hmacKey
  header ++ messageBody ++ hmac

/-- `parseMessage(messageBuffer, encryptionKey, hmacKey)` from
`crypto.js`: length check, fixed-offset split (Node `slice` semantics),
HMAC verification over all bytes preceding the HMAC field, then header
parse, authenticated decryption and payload deserialization. -/
def parseMessage (messageBuffer encryptionKey hmacKey : List Nat) :
    Except ParseErr (MessageHeader × Json) :=
  if messageBuffer.length < 14 + 12 + 16 + 32 then .error .tooShort
  else if ¬ verifyHMAC (jsSlice messageBuffer 0 (-32)) hmacKey
      (jsSliceFrom messageBuffer (-32)) then .error .authenticationFailed
  else
    match parseMessageHeader (jsSlice messageBuffer 0 14) with
    | none => .error .invalidHeader
    | some headerInfo =>
      match decrypt (jsSlice messageBuffer 26 (-48)) encryptionKey
          (jsSlice messageBuffer 14 26) (jsSlice messageBuffer (-48) (-32)) with
      | none => .error .decryptionFailed
      | some decryptedPayload =>
        match parseJson decryptedPayload with
        | none => .error .decodeError
        | some payload => .ok (headerInfo, payload)

/-! ### The connection state machine (`protocol.js`)

The `SecureCommunicationProtocol` class is modelled as a record of its
mutable fields plus pure step functions, one per method.  JS promises
returned by `send()` / `receive()` become numbered handles whose
settlement appears as `resolved` / `rejected` events; `setTimeout`
callbacks become explicit `fire…` step functions; the abstract transport
collaborator (`connection.send` / `connection.close`) appears as `sent` /
`transportClosed` events; application callbacks (`onMessage`, `onConnect`,
`onDisconnect`, `onError`) appear as events.  Randomness (IVs, generated
key pairs, the handshake temp key) and `Date.now()` are explicit
parameters.  A thrown JS exception is the `Option PErr` component; the
state reached before the throw is kept, matching mutation order in the
source. -/

inductive PState where
  | disconnected
  | handshakeInit
  | handshakeResponse
  | connected
  | closed
deriving DecidableEq, Repr

/-- Errors surfaced while operating the protocol. -/
inductive PErr where
  | parseFailure (e : ParseErr)
  | nullSessionKeys
  | invalidState
  | sequenceError
  | unknownMessageType
  | noConnection
  | missingKeyMaterial
  | ackTimeout
  | receiveTimeout
  | protocolTimeout
deriving DecidableEq, Repr

/-- Observable effects of a step: transport sends, transport teardown,
application notifications and promise settlements. -/
inductive Event where
  | sent (bytes : List Nat)
  | transportClosed
  | connectedEv
  | disconnected
  | messageEv (payload : Option Json)
  | errorEv (e : PErr)
  | resolved (hid : Nat) (v : Option Json)
  | rejected (hid : Nat) (e : PErr)

/-- The mutable fields of a `SecureCommunicationProtocol` instance. -/
structure Conn where
  state : PState
  sequenceNumber : Nat
  remoteSequenceNumber : Nat
  sessionKeys : Option SessionKeys
  keyPair : Option (List Nat × List Nat)
  remotePublicKey : Option (List Nat)
  connection : Bool
  messageQueue : List Nat
  pendingRequests : List (Nat × Nat)
  timeoutArmed : Bool
  handleCtr : Nat
deriving DecidableEq, Repr

/-- JS `Map.set` on an association list (replace or append). -/
def mapSet (m : List (Nat × Nat)) (k v : Nat) : List (Nat × Nat) :=
  if m.any (fun e => e.1 == k) then
    m.map (fun e => if e.1 == k then (k, v) else e)
  else m ++ [(k, v)]

/-- JS `Map.get` on an association list. -/
def mapGet (m : List (Nat × Nat)) (k : Nat) : Option Nat :=
  (m.find? (fun e => e.1 == k)).map (fun e => e.2)

/-- JS `Map.delete` on an association list. -/
def mapDelete (m : List (Nat × Nat)) (k : Nat) : List (Nat × Nat) :=
  m.filter (fun e => e.1 != k)

/-- Property lookup on an object document. -/
def lookupObj : JsonObj → List Nat → Option Json
  | .nil, _ => none
  | .cons k v tl, key => if k = key then some v else lookupObj tl key

/-- JS property access `doc.key`: defined only on objects. -/
def Json.lookup (j : Json) (key : List Nat) : Option Json :=
  match j with
  | .obj o => lookupObj o key
  | _ => none

/-- Bytes of a document field, when the field is a byte string. -/
def jsonBytes : Option Json → Option (List Nat)
  | some (.str s) => some s
  | _ => none

def typeKey : List Nat := [116, 121, 112, 101]
def payloadKey : List Nat := [112, 97, 121, 108, 111, 97, 100]
def timestampKey : List Nat := [116, 105, 109, 101, 115, 116, 97, 109, 112]
def sequenceNumberKey : List Nat :=
  [115, 101, 113, 117, 101, 110, 99, 101, 78, 117, 109, 98, 101, 114]
def publicKeyKey : List Nat := [112, 117, 98, 108, 105, 99, 75, 101, 121]
def reasonKey : List Nat := [114, 101, 97, 115, 111, 110]
def statusKey : List Nat := [115, 116, 97, 116, 117, 115]
def supportedVersionsKey : List Nat :=
  [115, 117, 112, 112, 111, 114, 116, 101, 100, 86, 101, 114, 115, 105,
   111, 110, 115]

def dataStr : List Nat := [100, 97, 116, 97]
def ackStr : List Nat := [97, 99, 107]
def handshakeInitStr : List Nat :=
  [104, 97, 110, 100, 115, 104, 97, 107, 101, 95, 105, 110, 105, 116]
def handshakeAckStr : List Nat :=
  [104, 97, 110, 100, 115, 104, 97, 107, 101, 95, 97, 99, 107]
def successStr : List Nat := [115, 117, 99, 99, 101, 115, 115]
def clientDisconnectStr : List Nat :=
  [67, 108, 105, 101, 110, 116, 32, 100, 105, 115, 99, 111, 110, 110,
   101, 99, 116]

/-- The `messageData` object literal built inside `send()`. -/
def dataPayload (message : Json) (now : Nat) : Json :=
  .obj (.cons typeKey (.str dataStr)
    (.cons payloadKey message
      (.cons timestampKey (.num (Int.ofNat now)) .nil)))

/-- The `ackData` object literal of `_handleDataMessage`; when the inbound
payload has no `sequenceNumber` property the JS field holds `undefined`
and `JSON.stringify` drops it. -/
def ackPayloadData (seqField : Option Json) (now : Nat) : Json :=
  .obj (.cons typeKey (.str ackStr)
    (match seqField with
     | some v => .cons sequenceNumberKey v
         (.cons timestampKey (.num (Int.ofNat now)) JsonObj.nil)
     | none => .cons timestampKey (.num (Int.ofNat now)) JsonObj.nil))

/-- The `ackData` object literal of `_handleHandshakeResponse`. -/
def handshakeAckPayload (now : Nat) : Json :=
  .obj (.cons typeKey (.str handshakeAckStr)
    (.cons statusKey (.str successStr)
      (.cons timestampKey (.num (Int.ofNat now)) .nil)))

/-- The `{reason}` object literal built inside `close()`. -/
def closePayload : Json :=
  .obj (.cons reasonKey (.str clientDisconnectStr) .nil)

/-- The `handshakeData` object literal of `_startHandshake`.  The real
field holds a library key object whose JSON form is lossy; the model
carries the raw public-key bytes. -/
def handshakeInitPayload (publicKey : List Nat) (now : Nat) : Json :=
  .obj (.cons typeKey (.str handshakeInitStr)
    (.cons publicKeyKey (.str publicKey)
      (.cons supportedVersionsKey (.arr (.cons (.num 1) .nil))
        (.cons timestampKey (.num (Int.ofNat now)) .nil))))

/-- `_closeConnection()`: set CLOSED, cancel the timer, tear down the
transport when present, fire the disconnect notification
unconditionally.  (The transport collaborator is abstract: its `close()`
is the `transportClosed` event and does not call back into the
protocol.) -/
def closeConnection (c : Conn) : Conn × List Event :=
  ({ c with state := .closed, timeoutArmed := false, connection := false },
   (if c.connection then [Event.transportClosed] else []) ++ [Event.disconnected])

/-- `_handleError(error)`: report via the error notification, then force
close unless already CLOSED. -/
def handleProtoError (c : Conn) (e : PErr) : Conn × List Event :=
  if c.state ≠ .closed then
    let r := closeConnection c
    (r.1, Event.errorEv e :: r.2)
  else (c, [Event.errorEv e])

/-- `close()`: early return when already CLOSED; otherwise try to build
and send a CLOSE frame (the post-increment of `sequenceNumber` is
evaluated before the session-key access, so it happens even when
`sessionKeys` is null and the access throws), and force close whether or
not that succeeded.  The catch swallows every failure, so `close()` never
raises. -/
def close (c : Conn) (iv : List Nat) : Conn × List Event :=
  if c.state = .closed then (c, [])
  else
    match c.sessionKeys with
    | none => closeConnection { c with sequenceNumber := c.sequenceNumber + 1 }
    | some ks =>
      let msg := createMessage 5 c.sequenceNumber closePayload
        ks.encryptionKey ks.hmacKey iv
      let c1 := { c with sequenceNumber := c.sequenceNumber + 1 }
      if c1.connection then
        let r := closeConnection c1
        (r.1, Event.sent msg :: r.2)
      else closeConnection c1

/-- `send(message)`: InvalidState outside CONNECTED; otherwise allocate
the next sequence number, build and transmit a DATA frame, and register a
pending request under `this.sequenceNumber - 1` as evaluated at
registration time.  The error component is an exception thrown to the
caller. -/
def send (c : Conn) (message : Json) (now : Nat) (iv : List Nat) :
    Conn × List Event × Option PErr :=
  if c.state ≠ .connected then (c, [], some .invalidState)
  else
    match c.sessionKeys with
    | none => ({ c with sequenceNumber := c.sequenceNumber + 1 }, [],
        some .nullSessionKeys)
    | some ks =>
      let msg := createMessage 3 c.sequenceNumber (dataPayload message now)
        ks.encryptionKey ks.hmacKey iv
      let c1 := { c with sequenceNumber := c.sequenceNumber + 1 }
      if c1.connection then
        ({ c1 with
            pendingRequests :=
              mapSet c1.pendingRequests (c1.sequenceNumber - 1) c1.handleCtr,
            handleCtr := c1.handleCtr + 1 },
         [Event.sent msg], none)
      else (c1, [], some .noConnection)

/-- Expiry of the timer armed by `send()` for handle `hid`: the callback
rejects that handle with the acknowledgment timeout and deletes the map
entry keyed by `this.sequenceNumber - 1` as evaluated at FIRE time — not
the key it registered. -/
def fireSendTimeout (c : Conn) (hid : Nat) : Conn × List Event :=
  ({ c with pendingRequests := mapDelete c.pendingRequests (c.sequenceNumber - 1) },
   [Event.rejected hid .ackTimeout])

/-- `receive()`: appends a waiter to `messageQueue` and returns its
handle.  The source performs no state check and cannot throw. -/
def receive (c : Conn) : Conn × Nat :=
  ({ c with
      messageQueue := c.messageQueue ++ [c.handleCtr],
      handleCtr := c.handleCtr + 1 },
   c.handleCtr)

/-- Expiry of the timer armed by `receive()` for handle `hid`: the
callback only rejects; the queue entry is left in place. -/
def fireReceiveTimeout (c : Conn) (hid : Nat) : Conn × List Event :=
  (c, [Event.rejected hid .receiveTimeout])

/-- `_handleHandshakeResponse(messageData)`: store the peer public key,
derive the session keys, send an ACK with them, and only after a
successful send transition to CONNECTED and arm the idle timer.  A
missing key pair or unusable public-key field makes the derivation throw
before the sequence number is incremented. -/
def handleHandshakeResponse (c : Conn) (payload : Json) (now : Nat)
    (iv : List Nat) : Conn × List Event × Option PErr :=
  let c0 := { c with remotePublicKey := jsonBytes (payload.lookup publicKeyKey) }
  match c0.keyPair, c0.remotePublicKey with
  | some kp, some pk =>
    let ks := deriveKeys (deriveSharedSecret kp.2 pk) SALT INFO
    let c1 := { c0 with sessionKeys := some ks }
    let msg := createMessage 4 c1.sequenceNumber (handshakeAckPayload now)
      ks.encryptionKey ks.hmacKey iv
    let c2 := { c1 with sequenceNumber := c1.sequenceNumber + 1 }
    if c2.connection then
      ({ c2 with state := .connected, timeoutArmed := true },
       [Event.sent msg], none)
    else (c2, [], some .noConnection)
  | _, _ => (c0, [], some .missingKeyMaterial)

/-- `_handleDataMessage(messageData)`: fire the message notification,
send an ACK echoing the (typically absent) `sequenceNumber` property of
the inbound payload, then resolve the oldest queued `receive()` handle if
one is waiting. -/
def handleDataMessage (c : Conn) (payload : Json) (now : Nat)
    (iv : List Nat) : Conn × List Event × Option PErr :=
  let evMsg := Event.messageEv (payload.lookup payloadKey)
  match c.sessionKeys with
  | none => (c, [evMsg], some .nullSessionKeys)
  | some ks =>
    let msg := createMessage 4 c.sequenceNumber
      (ackPayloadData (payload.lookup sequenceNumberKey) now)
      ks.encryptionKey ks.hmacKey iv
    let c1 := { c with sequenceNumber := c.sequenceNumber + 1 }
    if c1.connection then
      match c1.messageQueue with
      | [] => (c1, [evMsg, Event.sent msg], none)
      | hid :: rest =>
        ({ c1 with messageQueue := rest },
         [evMsg, Event.sent msg,
          Event.resolved hid (payload.lookup payloadKey)], none)
    else (c1, [evMsg], some .noConnection)

/-- `_handleAcknowledgment(messageData)`: look up the pending request
under the payload `sequenceNumber` property; resolve and delete on a hit,
silently ignore otherwise (also when the property is absent or not a
number const). -/
def handleAcknowledgment (c : Conn) (payload : Json) :
    Conn × List Event × Option PErr :=
  match payload.lookup sequenceNumberKey with
  | some (.num (Int.ofNat k)) =>
    match mapGet c.pendingRequests k with
    | some hid =>
      ({ c with pendingRequests := mapDelete c.pendingRequests k },
       [Event.resolved hid (some payload)], none)
    | none => (c, [], none)
  | _ => (c, [], none)

/-- `_handleClose(messageData)`: force close. -/
def handleClose (c : Conn) : Conn × List Event :=
  closeConnection c

/-- `_processMessage(messageBuffer)`: parse with the session keys (a null
`sessionKeys` makes the key access throw), reject non-increasing sequence
numbers, advance `remoteSequenceNumber`, dispatch on the message type;
every error thrown on this path is caught and routed through
`_handleError`. -/
def processMessage (c : Conn) (buf : List Nat) (now : Nat) (iv : List Nat) :
    Conn × List Event :=
  match c.sessionKeys with
  | none => handleProtoError c .nullSessionKeys
  | some ks =>
    match parseMessage buf ks.encryptionKey ks.hmacKey with
    | .error e => handleProtoError c (.parseFailure e)
    | .ok (h, payload) =>
      if h.sequenceNumber ≤ c.remoteSequenceNumber then
        handleProtoError c .sequenceError
      else
        let c1 := { c with remoteSequenceNumber := h.sequenceNumber }
        let r :=
          if h.messageType = 2 then handleHandshakeResponse c1 payload now iv
          else if h.messageType = 3 then handleDataMessage c1 payload now iv
          else if h.messageType = 4 then handleAcknowledgment c1 payload
          else if h.messageType = 5 then
            let rc := handleClose c1
            (rc.1, rc.2, none)
          else (c1, [], some .unknownMessageType)
        match r.2.2 with
        | none => (r.1, r.2.1)
        | some e =>
          let re := handleProtoError r.1 e
          (re.1, r.2.1 ++ re.2)

/-- `initialize()` from `protocol.js`: install a fresh key pair, reset
both counters, enter HANDSHAKE_INIT. -/
def initProtocol (c : Conn) (kp : List Nat × List Nat) : Conn :=
  { c with
      keyPair := some kp, sequenceNumber := 0,
      remoteSequenceNumber := 0, state := .handshakeInit }

/-- `connect(remoteAddress, remotePort, keyPair)`: adopt or generate a
key pair, unconditionally enter HANDSHAKE_INIT, create the transport,
send the HANDSHAKE_INIT frame under a random temp key, then transition
to CONNECTED, arm the idle timer and fire the connect notification.
There is no state guard at entry.  With the transport just created the
send cannot fail, so the catch branch of the source is unreachable
here. -/
def connect (c : Conn) (kpArg : Option (List Nat × List Nat))
    (freshKp : List Nat × List Nat) (tempKey iv : List Nat) (now : Nat) :
    Conn × List Event :=
  let c0kp : Conn × (List Nat × List Nat) :=
    match kpArg, c.keyPair with
    | some kp, _ => ({ c with keyPair := some kp }, kp)
    | none, none => (initProtocol c freshKp, freshKp)
    | none, some kp => (c, kp)
  let c1 := { c0kp.1 with state := .handshakeInit, connection := true }
  let msg := createMessage 1 c1.sequenceNumber
    (handshakeInitPayload c0kp.2.1 now) tempKey tempKey iv
  let c2 := { c1 with sequenceNumber := c1.sequenceNumber + 1 }
  ({ c2 with state := .connected, timeoutArmed := true },
   [Event.sent msg, Event.connectedEv])

/-- Observer: which frames of a run are accepted (parse succeeds and the
sequence number strictly exceeds the stored remote counter), and with
which sequence number. -/
def acceptedOf (c : Conn) (buf : List Nat) : Option Nat :=
  match c.sessionKeys with
  | none => none
  | some ks =>
    match parseMessage buf ks.encryptionKey ks.hmacKey with
    | .ok (h, _) =>
      if c.remoteSequenceNumber < h.sequenceNumber then some h.sequenceNumber
      else none
    | .error _ => none

/-- Observer: the accepted inbound sequence numbers of a run, in order.
Each input is an inbound `(buffer, now, ackIV)` triple. -/
def acceptedSeqs (c : Conn) : List (List Nat × Nat × List Nat) → List Nat
  | [] => []
  | (buf, now, iv) :: rest =>
    match acceptedOf c buf with
    | some s => s :: acceptedSeqs (processMessage c buf now iv).1 rest
    | none => acceptedSeqs (processMessage c buf now iv).1 rest

/-- Observer: is this the disconnect notification? -/
def isDisconnectEv : Event → Bool
  | .disconnected => true
  | _ => false

/-- Observer: is this an error notification? -/
def isErrorEv : Event → Bool
  | .errorEv _ => true
  | _ => false

/-- A 12-byte all-zero IV for concrete instances. -/
def nilIV : List Nat := List.replicate 12 0

/-- A CONNECTED connection with all-zero session keys: the starting point
of the concrete run instances. -/
def connS : Conn :=
  { state := .connected, sequenceNumber := 0, remoteSequenceNumber := 0,
    sessionKeys := some ⟨List.replicate 32 0, List.replicate 32 0⟩,
    keyPair := none, remotePublicKey := none, connection := true,
    messageQueue := [], pendingRequests := [], timeoutArmed := true,
    handleCtr := 0 }

/-- A freshly constructed (DISCONNECTED) connection. -/
def connD : Conn :=
  { state := .disconnected, sequenceNumber := 0, remoteSequenceNumber := 0,
    sessionKeys := none, keyPair := none, remotePublicKey := none,
    connection := false, messageQueue := [], pendingRequests := [],
    timeoutArmed := false, handleCtr := 0 }

/-- A CLOSED connection (as `close()` leaves one that had completed a
handshake). -/
def connC : Conn :=
  { state := .closed, sequenceNumber := 5, remoteSequenceNumber := 3,
    sessionKeys := some ⟨List.replicate 32 0, List.replicate 32 0⟩,
    keyPair := some ([1], [2]), remotePublicKey := none, connection := false,
    messageQueue := [], pendingRequests := [], timeoutArmed := false,
    handleCtr := 0 }

/-- A CONNECTED connection with one queued `receive()` handle (number 7). -/
def connQ : Conn :=
  { connS with messageQueue := [7], handleCtr := 8 }

/-- A CONNECTED connection whose remote counter is already at 5. -/
def c2w : Conn :=
  { connS with remoteSequenceNumber := 5 }

/-- The dispatch part of `_processMessage` on an accepted frame. -/
def dispatchMessage (c1 : Conn) (h : MessageHeader) (payload : Json)
    (now : Nat) (iv : List Nat) : Conn × List Event × Option PErr :=
  if h.messageType = 2 then handleHandshakeResponse c1 payload now iv
  else if h.messageType = 3 then handleDataMessage c1 payload now iv
  else if h.messageType = 4 then handleAcknowledgment c1 payload
  else if h.messageType = 5 then
    let rc := handleClose c1
    (rc.1, rc.2, none)
  else (c1, [], some PErr.unknownMessageType)

/-- Split of a remainder modulo `M * 256` into a base-256 digit and the
remaining high part; the arithmetic core of the big-endian round trip. -/
theorem mod_mul_split (n M : Nat) (hM : 0 < M) :
    n % (M * 256) = n / 256 % M * 256 + n % 256 := by
  have h1 : 256 * (n / 256) + n % 256 = n := Nat.div_add_mod n 256
  have h2 : M * (n / 256 / M) + n / 256 % M = n / 256 := Nat.div_add_mod (n / 256) M
  have hr : n % 256 < 256 := Nat.mod_lt _ (by norm_num)
  have hq : n / 256 % M < M := Nat.mod_lt _ hM
  have hlt : n / 256 % M * 256 + n % 256 < M * 256 := by
    have hs : n / 256 % M + 1 ≤ M := Nat.succ_le_of_lt hq
    have : (n / 256 % M + 1) * 256 ≤ M * 256 := Nat.mul_le_mul_right 256 hs
    omega
  have heq : n = n / 256 % M * 256 + n % 256 + n / 256 / M * (M * 256) := by
    conv_lhs => rw [← h1]
    conv_lhs => rw [← h2]
    ring
  calc n % (M * 256)
      = (n / 256 % M * 256 + n % 256 + n / 256 / M * (M * 256)) % (M * 256) := by
        rw [← heq]
    _ = (n / 256 % M * 256 + n % 256) % (M * 256) := by
        rw [Nat.add_mul_mod_self_right]
    _ = n / 256 % M * 256 + n % 256 := Nat.mod_eq_of_lt hlt

theorem beBytes_length (k n : Nat) : (beBytes k n).length = k := by
  induction k generalizing n with
  | zero => rfl
  | succ k ih => simp [beBytes, ih]

theorem foldl_beBytes (k n a : Nat) :
    (beBytes k n).foldl (fun x b => x * 256 + b) a = a * 256 ^ k + n % 256 ^ k := by
  induction k generalizing n a with
  | zero => simp [beBytes, Nat.mod_one]
  | succ k ih =>
    rw [beBytes, List.foldl_append, ih]
    simp only [List.foldl_cons, List.foldl_nil]
    have hM : 0 < 256 ^ k := Nat.pos_pow_of_pos k (by norm_num)
    have hmod : n % 256 ^ (k + 1) = n / 256 % 256 ^ k * 256 + n % 256 := by
      rw [pow_succ]
      exact mod_mul_split n (256 ^ k) hM
    rw [hmod, pow_succ]
    ring

theorem beVal_beBytes (k n : Nat) : beVal (beBytes k n) = n % 256 ^ k := by
  have := foldl_beBytes k n 0
  simpa [beVal] using this

theorem beVal_beBytes_of_lt {k n : Nat} (h : n < 256 ^ k) :
    beVal (beBytes k n) = n := by
  rw [beVal_beBytes, Nat.mod_eq_of_lt h]

theorem jsIndex_nonneg (len a : Nat) (ha : a ≤ len) :
    jsIndex len (a : Int) = a := by
  simp only [jsIndex]
  rw [if_neg (by omega)]
  have h1 : ((a : Int)).toNat = a := by omega
  rw [h1]
  exact Nat.min_eq_left ha

theorem jsIndex_neg (len a : Nat) (h0 : 0 < a) :
    jsIndex len (-(a : Int)) = len - a := by
  simp only [jsIndex]
  rw [if_pos (by omega)]
  omega

theorem jsSlice_nonneg (buf : List Nat) (a b : Nat)
    (ha : a ≤ buf.length) (hb : b ≤ buf.length) :
    jsSlice buf (a : Int) (b : Int) = (buf.drop a).take (b - a) := by
  simp only [jsSlice]
  rw [jsIndex_nonneg _ _ ha, jsIndex_nonneg _ _ hb]

theorem jsSlice_nonneg_neg (buf : List Nat) (a b : Nat)
    (h0 : 0 < b) (hab : a + b ≤ buf.length) :
    jsSlice buf (a : Int) (-(b : Int)) =
      (buf.drop a).take (buf.length - b - a) := by
  have ha : a ≤ buf.length := by omega
  simp only [jsSlice]
  rw [jsIndex_nonneg _ _ ha, jsIndex_neg _ _ h0]

theorem jsSlice_neg_neg (buf : List Nat) (a b : Nat)
    (h0 : 0 < b) (hba : b ≤ a) (ha : a ≤ buf.length) :
    jsSlice buf (-(a : Int)) (-(b : Int)) =
      (buf.drop (buf.length - a)).take (a - b) := by
  have h0a : 0 < a := by omega
  simp only [jsSlice]
  rw [jsIndex_neg _ _ h0a, jsIndex_neg _ _ h0]
  congr 1
  omega

theorem jsSliceFrom_neg (buf : List Nat) (a : Nat)
    (h0 : 0 < a) :
    jsSliceFrom buf (-(a : Int)) = buf.drop (buf.length - a) := by
  simp only [jsSliceFrom]
  rw [jsIndex_neg _ _ h0]

theorem generateHMAC_length (data key : List Nat) :
    (generateHMAC data key).length = 32 := by
  simp [generateHMAC]

theorem xorKs_length (key iv : List Nat) (i : Nat) (l : List Nat) :
    (xorKs key iv i l).length = l.length := by
  induction l generalizing i with
  | nil => rfl
  | cons b bs ih => simp [xorKs, ih]

theorem xorKs_xorKs (key iv : List Nat) (i : Nat) (l : List Nat) :
    xorKs key iv i (xorKs key iv i l) = l := by
  induction l generalizing i with
  | nil => rfl
  | cons b bs ih =>
    simp only [xorKs, ih]
    congr 1
    rw [Nat.xor_assoc, Nat.xor_self, Nat.xor_zero]

theorem gcmTag_length (ct key iv : List Nat) : (gcmTag ct key iv).length = 16 := by
  simp [gcmTag]

theorem hkdfSync_64_length (ikm salt info : List Nat) :
    (hkdfSync ikm salt info 64).length = 64 := by
  simp only [hkdfSync, hkdfOkm]
  rw [List.length_take]
  have : ((64 + 31) / 32 : Nat) = 2 := by norm_num
  rw [this]
  have hr : List.range 2 = [0, 1] := by decide
  rw [hr]
  simp [List.flatten, generateHMAC_length, hkdfBlock]

theorem decNat_encNat (n : Nat) (rest : List Nat) :
    decNat (encNat n ++ rest) = some (n, rest) := by
  induction n with
  | zero => simp [encNat, decNat]
  | succ n ih =>
    have h : encNat (n + 1) ++ rest = 0 :: (encNat n ++ rest) := by
      simp [encNat, List.replicate_succ]
    rw [h]
    simp [decNat, ih]

theorem splitTake_append (xs rest : List Nat) :
    splitTake xs.length (xs ++ rest) = some (xs, rest) := by
  simp [splitTake, List.take_left, List.drop_left]

theorem encNat_length (n : Nat) : (encNat n).length = n + 1 := by
  simp [encNat]

theorem sizeJ_pos (j : Json) : 1 ≤ sizeJ j := by
  cases j <;> simp [sizeJ]

theorem roundtripAux : ∀ fuel : Nat,
    (∀ j rest, sizeJ j ≤ fuel → deJson fuel (serJson j ++ rest) = some (j, rest)) ∧
    (∀ l rest, sizeL l ≤ fuel →
      deList fuel (listLen l) (serList l ++ rest) = some (l, rest)) ∧
    (∀ o rest, sizeO o ≤ fuel →
      deObj fuel (objLen o) (serObj o ++ rest) = some (o, rest)) := by
  intro fuel
  induction fuel with
  | zero =>
    refine ⟨fun j rest h => absurd h (by have := sizeJ_pos j; omega),
      fun l rest h => ?_, fun o rest h => ?_⟩
    · cases l with
      | nil => simp [serList, listLen, deList]
      | cons j tl =>
        simp only [sizeL] at h
        omega
    · cases o with
      | nil => simp [serObj, objLen, deObj]
      | cons k v tl =>
        simp only [sizeO] at h
        omega
  | succ fuel ih =>
    obtain ⟨ihJ, ihL, ihO⟩ := ih
    refine ⟨?_, ?_, ?_⟩
    · intro j rest h
      cases j with
      | null => simp [serJson, deJson]
      | bool b => cases b <;> simp [serJson, deJson]
      | num i =>
        cases i with
        | ofNat n => simp [serJson, deJson, decNat_encNat]
        | negSucc n => simp [serJson, deJson, decNat_encNat]
      | str s =>
        simp [serJson, deJson, List.append_assoc, decNat_encNat, splitTake_append]
      | arr l =>
        have hl : sizeL l ≤ fuel := by
          simp only [sizeJ] at h
          omega
        simp [serJson, deJson, List.append_assoc, decNat_encNat, ihL l rest hl]
      | obj o =>
        have ho : sizeO o ≤ fuel := by
          simp only [sizeJ] at h
          omega
        simp [serJson, deJson, List.append_assoc, decNat_encNat, ihO o rest ho]
    · intro l rest h
      cases l with
      | nil => simp [serList, listLen, deList]
      | cons j tl =>
        have h1 : sizeJ j ≤ fuel := by
          simp only [sizeL] at h
          omega
        have h2 : sizeL tl ≤ fuel := by
          simp only [sizeL] at h
          omega
        simp [serList, listLen, deList, List.append_assoc,
          ihJ j (serList tl ++ rest) h1, ihL tl rest h2]
    · intro o rest h
      cases o with
      | nil => simp [serObj, objLen, deObj]
      | cons k v tl =>
        have h1 : sizeJ v ≤ fuel := by
          simp only [sizeO] at h
          omega
        have h2 : sizeO tl ≤ fuel := by
          simp only [sizeO] at h
          omega
        simp [serObj, objLen, deObj, List.append_assoc, decNat_encNat,
          splitTake_append, ihJ v (serObj tl ++ rest) h1, ihO tl rest h2]

theorem ser_size_bound : ∀ n : Nat,
    (∀ j, sizeJ j ≤ n → sizeJ j ≤ (serJson j).length) ∧
    (∀ l, sizeL l ≤ n → sizeL l ≤ listLen l + (serList l).length) ∧
    (∀ o, sizeO o ≤ n → sizeO o ≤ objLen o + (serObj o).length) := by
  intro n
  induction n with
  | zero =>
    refine ⟨fun j h => absurd h (by have := sizeJ_pos j; omega),
      fun l h => ?_, fun o h => ?_⟩
    · cases l with
      | nil => simp [sizeL]
      | cons j tl =>
        simp only [sizeL] at h
        omega
    · cases o with
      | nil => simp [sizeO]
      | cons k v tl =>
        simp only [sizeO] at h
        omega
  | succ n ih =>
    obtain ⟨ihJ, ihL, ihO⟩ := ih
    refine ⟨?_, ?_, ?_⟩
    · intro j h
      cases j with
      | null => simp [sizeJ, serJson]
      | bool b => cases b <;> simp [sizeJ, serJson]
      | num i =>
        cases i with
        | ofNat m => simp [sizeJ, serJson]
        | negSucc m => simp [sizeJ, serJson]
      | str s => simp [sizeJ, serJson]
      | arr l =>
        have hl : sizeL l ≤ n := by
          simp only [sizeJ] at h
          omega
        have := ihL l hl
        simp only [sizeJ, serJson, List.length_cons, List.length_append,
          encNat_length]
        omega
      | obj o =>
        have ho : sizeO o ≤ n := by
          simp only [sizeJ] at h
          omega
        have := ihO o ho
        simp only [sizeJ, serJson, List.length_cons, List.length_append,
          encNat_length]
        omega
    · intro l h
      cases l with
      | nil => simp [sizeL]
      | cons j tl =>
        have h1 : sizeJ j ≤ n := by
          simp only [sizeL] at h
          omega
        have h2 : sizeL tl ≤ n := by
          simp only [sizeL] at h
          omega
        have b1 := ihJ j h1
        have b2 := ihL tl h2
        simp only [sizeL, serList, listLen, List.length_append]
        omega
    · intro o h
      cases o with
      | nil => simp [sizeO]
      | cons k v tl =>
        have h1 : sizeJ v ≤ n := by
          simp only [sizeO] at h
          omega
        have h2 : sizeO tl ≤ n := by
          simp only [sizeO] at h
          omega
        have b1 := ihJ v h1
        have b2 := ihO tl h2
        simp only [sizeO, serObj, objLen, List.length_append, encNat_length]
        omega

/-- The payload codec is lossless: decoding a serialized document yields
the document back. -/
theorem parseJson_serJson (j : Json) : parseJson (serJson j) = some j := by
  have hb : sizeJ j ≤ (serJson j).length := (ser_size_bound (sizeJ j)).1 j le_rfl
  have h := (roundtripAux ((serJson j).length + 1)).1 j [] (by omega)
  rw [List.append_nil] at h
  unfold parseJson
  rw [h]

theorem createMessageHeader_length (t s l : Nat) :
    (createMessageHeader t s l).length = 14 := by
  simp [createMessageHeader, beBytes_length]

theorem parseMessageHeader_roundtrip (t s l : Nat)
    (hs : s < 2 ^ 64) (hl : l < 2 ^ 32) :
    parseMessageHeader (createMessageHeader t s l) =
      some ⟨1, t, s, l⟩ := by
  have h8 : (beBytes 8 s).length = 8 := beBytes_length 8 s
  have h4 : (beBytes 4 l).length = 4 := beBytes_length 4 l
  have hs' : s < 256 ^ 8 := by
    have : (256 : Nat) ^ 8 = 2 ^ 64 := by norm_num
    omega
  have hl' : l < 256 ^ 4 := by
    have : (256 : Nat) ^ 4 = 2 ^ 32 := by norm_num
    omega
  have hsplit : createMessageHeader t s l =
      1 :: t :: (beBytes 8 s ++ beBytes 4 l) := by
    simp [createMessageHeader, VERSION]
  unfold parseMessageHeader
  rw [if_neg (by rw [createMessageHeader_length]; omega)]
  rw [hsplit]
  have e2 : ((1 :: t :: (beBytes 8 s ++ beBytes 4 l)).drop 2).take 8 =
      beBytes 8 s := by
    simp only [List.drop_succ_cons, List.drop_zero]
    exact List.take_left' h8
  have e3 : ((1 :: t :: (beBytes 8 s ++ beBytes 4 l)).drop 10).take 4 =
      beBytes 4 l := by
    have hd : (1 :: t :: (beBytes 8 s ++ beBytes 4 l)).drop 10 =
        (beBytes 8 s ++ beBytes 4 l).drop 8 := by
      simp only [List.drop_succ_cons]
    rw [hd, List.drop_left' h8]
    exact List.take_of_length_le (by omega)
  rw [e2, e3, beVal_beBytes_of_lt hs', beVal_beBytes_of_lt hl']
  rfl

/-- Decomposition of a well-formed frame at the fixed `parseMessage`
offsets: for `msg = header ‖ iv ‖ ciphertext ‖ tag ‖ hmac` with component
lengths 14/12/·/16/32, each slice recovers its component. -/
theorem frame_slices (A B C D E : List Nat)
    (la : A.length = 14) (lb : B.length = 12)
    (ld : D.length = 16) (le : E.length = 32) :
    jsSlice (A ++ B ++ C ++ D ++ E) 0 14 = A ∧
    jsSlice (A ++ B ++ C ++ D ++ E) 14 26 = B ∧
    jsSlice (A ++ B ++ C ++ D ++ E) 26 (-48) = C ∧
    jsSlice (A ++ B ++ C ++ D ++ E) (-48) (-32) = D ∧
    jsSliceFrom (A ++ B ++ C ++ D ++ E) (-32) = E ∧
    jsSlice (A ++ B ++ C ++ D ++ E) 0 (-32) = A ++ B ++ C ++ D ∧
    (A ++ B ++ C ++ D ++ E).length = C.length + 74 := by
  set msg := A ++ B ++ C ++ D ++ E with hmsg
  have hlen : msg.length = C.length + 74 := by
    simp only [hmsg, List.length_append]
    omega
  have l2 : (A ++ B).length = 26 := by
    simp only [List.length_append]
    omega
  have l3 : (A ++ B ++ C).length = 26 + C.length := by
    simp only [List.length_append]
    omega
  have l4 : (A ++ B ++ C ++ D).length = 42 + C.length := by
    simp only [List.length_append]
    omega
  have g1 : msg = A ++ (B ++ (C ++ (D ++ E))) := by
    simp [hmsg, List.append_assoc]
  have g2 : msg = (A ++ B) ++ (C ++ (D ++ E)) := by
    simp [hmsg, List.append_assoc]
  have g3 : msg = (A ++ B ++ C) ++ (D ++ E) := by
    simp [hmsg, List.append_assoc]
  have g4 : msg = (A ++ B ++ C ++ D) ++ E := by
    simp [hmsg, List.append_assoc]
  refine ⟨?_, ?_, ?_, ?_, ?_, ?_, hlen⟩
  · have h := jsSlice_nonneg msg 0 14 (by omega) (by omega)
    norm_cast at h
    rw [h, List.drop_zero, Nat.sub_zero, g1]
    exact List.take_left' la
  · have h := jsSlice_nonneg msg 14 26 (by omega) (by omega)
    norm_cast at h
    rw [h, g1, List.drop_left' la]
    have h12 : (26 : Nat) - 14 = 12 := by norm_num
    rw [h12]
    exact List.take_left' lb
  · have h := jsSlice_nonneg_neg msg 26 48 (by norm_num) (by omega)
    norm_cast at h
    rw [show Int.negSucc 47 = -48 from rfl] at h
    have harith : msg.length - 48 - 26 = C.length := by omega
    rw [h, harith, g2, List.drop_left' l2]
    exact List.take_left C (D ++ E)
  · have h := jsSlice_neg_neg msg 48 32 (by norm_num) (by norm_num) (by omega)
    norm_cast at h
    rw [show Int.negSucc 47 = -48 from rfl, show Int.negSucc 31 = -32 from rfl] at h
    have hd48 : msg.length - 48 = (A ++ B ++ C).length := by omega
    rw [h, hd48, g3, List.drop_left]
    have h16 : (48 : Nat) - 32 = 16 := by norm_num
    rw [h16]
    exact List.take_left' ld
  · have h := jsSliceFrom_neg msg 32 (by norm_num)
    norm_cast at h
    rw [show Int.negSucc 31 = -32 from rfl] at h
    have hd32 : msg.length - 32 = (A ++ B ++ C ++ D).length := by omega
    rw [h, hd32]
    conv_lhs => rw [g4]
    rw [List.drop_left]
  · have h := jsSlice_nonneg_neg msg 0 32 (by norm_num) (by omega)
    norm_cast at h
    rw [show Int.negSucc 31 = -32 from rfl] at h
    have hd32 : msg.length - 32 - 0 = (A ++ B ++ C ++ D).length := by omega
    rw [h, List.drop_zero, hd32]
    conv_lhs => rw [g4]
    exact List.take_left _ _

/-- Frame round trip, core form: parsing a built frame with the building
keys succeeds and reproduces version 1, the message type, the sequence
number, the serialized payload length, and the payload itself. -/
theorem parseMessage_createMessage (t s : Nat) (p : Json) (ek hk iv : List Nat)
    (hiv : iv.length = 12) (hs : s < 2 ^ 64)
    (hl : (serJson p).length < 2 ^ 32) :
    parseMessage (createMessage t s p ek hk iv) ek hk =
      .ok (⟨1, t, s, (serJson p).length⟩, p) := by
  set pb := serJson p with hpb
  set H := createMessageHeader t s pb.length with hHdef
  set CT := xorKs ek iv 0 pb with hCTdef
  set TG := gcmTag CT ek iv with hTGdef
  set HM := generateHMAC (H ++ (iv ++ CT ++ TG)) hk with hHMdef
  have hlH : H.length = 14 := by
    rw [hHdef]
    exact createMessageHeader_length _ _ _
  have hlTG : TG.length = 16 := by
    rw [hTGdef]
    exact gcmTag_length _ _ _
  have hlHM : HM.length = 32 := by
    rw [hHMdef]
    exact generateHMAC_length _ _
  have hmsg : createMessage t s p ek hk iv = H ++ iv ++ CT ++ TG ++ HM := by
    simp [createMessage, encrypt, hpb, hHdef, hCTdef, hTGdef, hHMdef,
      List.append_assoc]
  obtain ⟨s1, s2, s3, s4, s5, s6, slen⟩ :=
    frame_slices H iv CT TG HM hlH hiv hlTG hlHM
  have hdata : H ++ iv ++ CT ++ TG = H ++ (iv ++ CT ++ TG) := by
    simp [List.append_assoc]
  have c1 : ¬ ((H ++ iv ++ CT ++ TG ++ HM).length < 14 + 12 + 16 + 32) := by
    rw [slen]
    omega
  have c2 : verifyHMAC (jsSlice (H ++ iv ++ CT ++ TG ++ HM) 0 (-32)) hk
      (jsSliceFrom (H ++ iv ++ CT ++ TG ++ HM) (-32)) = true := by
    rw [s6, s5, hdata, hHMdef]
    simp [verifyHMAC]
  have c3 : parseMessageHeader (jsSlice (H ++ iv ++ CT ++ TG ++ HM) 0 14) =
      some ⟨1, t, s, pb.length⟩ := by
    rw [s1, hHdef]
    exact parseMessageHeader_roundtrip t s pb.length hs hl
  have c4 : decrypt (jsSlice (H ++ iv ++ CT ++ TG ++ HM) 26 (-48)) ek
      (jsSlice (H ++ iv ++ CT ++ TG ++ HM) 14 26)
      (jsSlice (H ++ iv ++ CT ++ TG ++ HM) (-48) (-32)) = some pb := by
    rw [s3, s2, s4, hTGdef]
    simp [decrypt, hCTdef, xorKs_xorKs]
  have c5 : parseJson pb = some p := by
    rw [hpb]
    exact parseJson_serJson p
  rw [hmsg]
  unfold parseMessage
  rw [if_neg c1, if_neg (not_not_intro c2)]
  simp only [c3, c4, c5]

/-! ### Claim theorems for the codec -/

/-- C1: Frame round trip — for every message type in the enum, every u64
sequence number, every payload document, every pair of 32-byte keys and
every 12-byte IV, `parseMessage (createMessage …)` succeeds and returns a
header with version 1, the same type and sequence number, payloadLength
equal to the byte length of the serialized payload, and the payload
itself. -/
theorem scp_c1 (t s : Nat) (p : Json) (ek hk iv : List Nat)
    (ht : 1 ≤ t ∧ t ≤ 5) (hs : s < 2 ^ 64)
    (hek : ek.length = 32) (hhk : hk.length = 32) (hiv : iv.length = 12)
    (hl : (serJson p).length < 2 ^ 32) :
    parseMessage (createMessage t s p ek hk iv) ek hk =
      Except.ok (⟨1, t, s, (serJson p).length⟩, p) :=
  parseMessage_createMessage t s p ek hk iv hiv hs hl

theorem scp_c1_witness :
    parseMessage
        (createMessage 3 1 Json.null (List.replicate 32 0)
          (List.replicate 32 0) (List.replicate 12 0))
        (List.replicate 32 0) (List.replicate 32 0) =
      Except.ok (⟨1, 3, 1, (serJson Json.null).length⟩, Json.null) :=
  scp_c1 3 1 Json.null (List.replicate 32 0) (List.replicate 32 0)
    (List.replicate 12 0) ⟨by norm_num, by norm_num⟩ (by norm_num)
    (by simp) (by simp) (by simp) (by simp [serJson])

/-- C3: Verify-then-decrypt — on any buffer of length at least 74, if the
HMAC over all bytes preceding the trailing 32-byte field does not verify,
`parseMessage` fails with AuthenticationFailed (so no decryption result is
ever produced); conversely any successful parse implies the HMAC
verified. -/
theorem scp_c3 (buf ek hk : List Nat) (hlen : 74 ≤ buf.length) :
    (verifyHMAC (buf.take (buf.length - 32)) hk (buf.drop (buf.length - 32)) = false →
      parseMessage buf ek hk = Except.error ParseErr.authenticationFailed) ∧
    (∀ h p, parseMessage buf ek hk = Except.ok (h, p) →
      verifyHMAC (buf.take (buf.length - 32)) hk (buf.drop (buf.length - 32)) = true) := by
  have e6 : jsSlice buf 0 (-32) = buf.take (buf.length - 32) := by
    have h := jsSlice_nonneg_neg buf 0 32 (by norm_num) (by omega)
    rw [show buf.length - 32 - 0 = buf.length - 32 from by omega,
      List.drop_zero] at h
    exact_mod_cast h
  have e5 : jsSliceFrom buf (-32) = buf.drop (buf.length - 32) := by
    have h := jsSliceFrom_neg buf 32 (by norm_num)
    exact_mod_cast h
  have key : verifyHMAC (buf.take (buf.length - 32)) hk
      (buf.drop (buf.length - 32)) = false →
      parseMessage buf ek hk = Except.error ParseErr.authenticationFailed := by
    intro hv
    unfold parseMessage
    rw [if_neg (by omega)]
    simp only [e6, e5, hv]
    simp
  refine ⟨key, ?_⟩
  intro h p hok
  cases hb : verifyHMAC (buf.take (buf.length - 32)) hk
      (buf.drop (buf.length - 32)) with
  | true => rfl
  | false =>
    rw [key hb] at hok
    exact absurd hok (by simp)

set_option maxRecDepth 10000 in
theorem scp_c3_witness :
    74 ≤ (List.replicate 74 (0 : Nat)).length ∧
    parseMessage (List.replicate 74 0) [] [] =
      Except.error ParseErr.authenticationFailed :=
  ⟨by simp, (scp_c3 (List.replicate 74 0) [] [] (by simp)).1 (by decide)⟩

/-- C9: Minimum frame length — any buffer shorter than 74 bytes fails
with TooShort whatever the keys are (so before any key-dependent HMAC or
decryption work), and for buffers of length at least 74 the slices taken
by `parseMessage` are exactly the regions the layout describes: the IV is
bytes [14,26), the tag is the 16 bytes preceding the trailing 32-byte
HMAC, and the ciphertext is everything between offset 26 and the tag. -/
theorem scp_c9 (buf ek hk : List Nat) :
    (buf.length < 74 → parseMessage buf ek hk = Except.error ParseErr.tooShort) ∧
    (buf.length < 74 → ∀ ek₂ hk₂, parseMessage buf ek hk = parseMessage buf ek₂ hk₂) ∧
    (74 ≤ buf.length →
      jsSlice buf 14 26 = (buf.drop 14).take 12 ∧
      jsSlice buf (-48) (-32) = (buf.drop (buf.length - 48)).take 16 ∧
      jsSlice buf 26 (-48) = (buf.drop 26).take (buf.length - 48 - 26) ∧
      jsSliceFrom buf (-32) = buf.drop (buf.length - 32) ∧
      jsSlice buf 0 (-32) = buf.take (buf.length - 32)) := by
  have short : buf.length < 74 →
      parseMessage buf ek hk = Except.error ParseErr.tooShort := by
    intro h
    unfold parseMessage
    rw [if_pos (by omega)]
  refine ⟨short, ?_, ?_⟩
  · intro h ek₂ hk₂
    rw [short h]
    unfold parseMessage
    rw [if_pos (by omega)]
  · intro h
    refine ⟨?_, ?_, ?_, ?_, ?_⟩
    · have e := jsSlice_nonneg buf 14 26 (by omega) (by omega)
      rw [show (26 : Nat) - 14 = 12 from by norm_num] at e
      exact_mod_cast e
    · have e := jsSlice_neg_neg buf 48 32 (by norm_num) (by norm_num) (by omega)
      rw [show (48 : Nat) - 32 = 16 from by norm_num] at e
      exact_mod_cast e
    · have e := jsSlice_nonneg_neg buf 26 48 (by norm_num) (by omega)
      exact_mod_cast e
    · have e := jsSliceFrom_neg buf 32 (by norm_num)
      exact_mod_cast e
    · have e := jsSlice_nonneg_neg buf 0 32 (by norm_num) (by omega)
      rw [show buf.length - 32 - 0 = buf.length - 32 from by omega,
        List.drop_zero] at e
      exact_mod_cast e

theorem scp_c9_witness :
    (List.replicate 73 (0 : Nat)).length < 74 ∧
    parseMessage (List.replicate 73 0) [] [] = Except.error ParseErr.tooShort ∧
    jsSlice (List.replicate 74 (0 : Nat)) 14 26 =
      ((List.replicate 74 (0 : Nat)).drop 14).take 12 :=
  ⟨by simp, (scp_c9 (List.replicate 73 0) [] []).1 (by simp),
    (((scp_c9 (List.replicate 74 0) [] []).2.2) (by simp)).1⟩

/-- C7: Key derivation — `deriveKeys` is deterministic (equal inputs give
equal session keys), and its result is exactly the 64-byte HKDF-SHA256
expansion split into a first-32-byte encryption key and a last-32-byte
HMAC key. -/
theorem scp_c7 (sharedSecret salt info : List Nat) :
    (∀ s₂, sharedSecret = s₂ →
      deriveKeys sharedSecret salt info = deriveKeys s₂ salt info) ∧
    deriveKeys sharedSecret salt info =
      ⟨(hkdfSync sharedSecret salt info 64).take 32,
       (hkdfSync sharedSecret salt info 64).drop 32⟩ ∧
    (hkdfSync sharedSecret salt info 64).length = 64 ∧
    (deriveKeys sharedSecret salt info).encryptionKey.length = 32 ∧
    (deriveKeys sharedSecret salt info).hmacKey.length = 32 ∧
    (deriveKeys sharedSecret salt info).encryptionKey ++
      (deriveKeys sharedSecret salt info).hmacKey =
      hkdfSync sharedSecret salt info 64 := by
  have h64 := hkdfSync_64_length sharedSecret salt info
  refine ⟨fun s₂ h => by rw [h], rfl, h64, ?_, ?_, ?_⟩
  · simp [deriveKeys, List.length_take, h64]
  · simp [deriveKeys, List.length_drop, h64]
  · simp [deriveKeys, List.take_append_drop]

theorem scp_c7_witness :
    deriveKeys [1, 2, 3] SALT INFO = deriveKeys [1, 2, 3] SALT INFO ∧
    (hkdfSync [1, 2, 3] SALT INFO 64).length = 64 :=
  ⟨(scp_c7 [1, 2, 3] SALT INFO).1 [1, 2, 3] rfl,
   (scp_c7 [1, 2, 3] SALT INFO).2.2.1⟩

/-! ### Claim theorems for `close()` -/

/-- C6: Close semantics — a second `close()` on a CLOSED connection
changes nothing; from any other state `close()` leaves the state CLOSED,
tears the transport down and cancels the timer whether or not the CLOSE
frame could be built or sent, fires the disconnect notification exactly
once and no error notification (it never raises: the step is total and
its error events are empty), and when session keys and a transport are
present it best-effort sends a CLOSE frame first. -/
theorem scp_c6 (c : Conn) (iv : List Nat) :
    (c.state = PState.closed → close c iv = (c, [])) ∧
    (c.state ≠ PState.closed →
      (close c iv).1.state = PState.closed ∧
      (close c iv).1.connection = false ∧
      (close c iv).1.timeoutArmed = false ∧
      ((close c iv).2.countP isDisconnectEv) = 1 ∧
      ((close c iv).2.countP isErrorEv) = 0 ∧
      (∀ ks, c.sessionKeys = some ks → c.connection = true →
        Event.sent (createMessage 5 c.sequenceNumber closePayload
          ks.encryptionKey ks.hmacKey iv) ∈ (close c iv).2)) := by
  constructor
  · intro h
    simp [close, h]
  · intro h
    unfold close closeConnection
    rw [if_neg h]
    cases hks : c.sessionKeys with
    | none =>
      cases hc : c.connection with
      | true =>
        simp [hc, isDisconnectEv, isErrorEv, List.countP_cons, hks]
      | false =>
        simp [hc, isDisconnectEv, isErrorEv, List.countP_cons, hks]
    | some ks =>
      cases hc : c.connection with
      | true =>
        simp [hc, isDisconnectEv, isErrorEv, List.countP_cons, hks]
      | false =>
        simp [hc, isDisconnectEv, isErrorEv, List.countP_cons, hks]

theorem scp_c6_witness :
    close connC nilIV = (connC, []) ∧
    (close connS nilIV).1.state = PState.closed ∧
    ((close connS nilIV).2.countP isDisconnectEv) = 1 :=
  ⟨(scp_c6 connC nilIV).1 rfl,
   ((scp_c6 connS nilIV).2 (by decide)).1,
   ((scp_c6 connS nilIV).2 (by decide)).2.2.2.1⟩

/-- C10: `close()` before handshake completion — with `sessionKeys` still
null the attempt to build the CLOSE frame fails after the sequence-number
post-increment; the failure is swallowed, the state becomes CLOSED, the
timer is cancelled, the transport is torn down and the disconnect
notification still fires; nothing is raised to the caller (the step is
total and emits no error event). -/
theorem scp_c10 (c : Conn) (iv : List Nat)
    (hs : c.state ≠ PState.closed) (hk : c.sessionKeys = none) :
    close c iv =
      ({ c with
          state := PState.closed, timeoutArmed := false,
          connection := false, sequenceNumber := c.sequenceNumber + 1 },
       (if c.connection then [Event.transportClosed] else []) ++
         [Event.disconnected]) := by
  unfold close closeConnection
  rw [if_neg hs, hk]

theorem scp_c10_witness :
    close { connD with state := PState.handshakeInit } nilIV =
      ({ connD with
          state := PState.closed, timeoutArmed := false,
          connection := false, sequenceNumber := 1 },
       [Event.disconnected]) := by
  have h := scp_c10 { connD with state := PState.handshakeInit } nilIV
    (by decide) rfl
  simpa [connD] using h

/-! ### Claim theorems for `send()` / `receive()` timers -/

/-- C4, failing input: on a CONNECTED connection two `send()` calls
allocate sequence numbers 0 and 1 (handles 0 and 1, map entries `(0,0)`
then `(1,1)`).  When the FIRST send times out with no ACK, its callback
rejects handle 0 with AckTimeout but deletes the map entry keyed
`sequenceNumber - 1 = 1` — the SECOND send entry — leaving its own
entry `(0,0)` in the map; with no later send the same callback would
have deleted its own entry.  The claim (and the data model of the spec)
say the expiring timer removes the entry of the send that armed it, for
every pattern of later sends. -/
theorem scp_c4_code_bug :
    ((send connS Json.null 0 nilIV).1.pendingRequests = [(0, 0)]) ∧
    ((fireSendTimeout (send connS Json.null 0 nilIV).1 0).1.pendingRequests
      = []) ∧
    ((send (send connS Json.null 0 nilIV).1 Json.null 0 nilIV).1.pendingRequests
      = [(0, 0), (1, 1)]) ∧
    ((fireSendTimeout
        (send (send connS Json.null 0 nilIV).1 Json.null 0 nilIV).1 0).1.pendingRequests
      = [(0, 0)]) ∧
    ((fireSendTimeout
        (send (send connS Json.null 0 nilIV).1 Json.null 0 nilIV).1 0).2
      = [Event.rejected 0 PErr.ackTimeout]) :=
  ⟨rfl, rfl, rfl, rfl, rfl⟩

/-- C8, counterexample: `receive()` performs no state check — called on a
DISCONNECTED connection it does not fail with InvalidState but registers
a waiter handle. -/
theorem scp_c8_counterexample :
    connD.state ≠ PState.connected ∧
    (receive connD).1.messageQueue = [0] ∧
    (receive connD).1.state = PState.disconnected := by
  refine ⟨by decide, rfl, rfl⟩

/-- C8 amended: `receive()` registers a handle whatever the state is (the
source has no InvalidState check); queued handles are served FIFO against
inbound DATA frames, the oldest resolving with the inbound payload; a
handle whose timer fires fails with ReceiveTimeout. -/
theorem scp_c8_amended (c : Conn) :
    (receive c = ({ c with
        messageQueue := c.messageQueue ++ [c.handleCtr],
        handleCtr := c.handleCtr + 1 }, c.handleCtr)) ∧
    (∀ payload now iv ks hid rest, c.sessionKeys = some ks →
      c.connection = true → c.messageQueue = hid :: rest →
      (handleDataMessage c payload now iv).1.messageQueue = rest ∧
      Event.resolved hid (payload.lookup payloadKey) ∈
        (handleDataMessage c payload now iv).2.1 ∧
      (handleDataMessage c payload now iv).2.2 = none) ∧
    (∀ hid, fireReceiveTimeout c hid =
      (c, [Event.rejected hid PErr.receiveTimeout])) := by
  refine ⟨rfl, ?_, fun hid => rfl⟩
  intro payload now iv ks hid rest hks hc hq
  simp only [handleDataMessage, hks, hc, hq]
  simp [List.mem_cons]

theorem scp_c8_witness :
    (handleDataMessage connQ Json.null 0 nilIV).1.messageQueue = [] ∧
    fireReceiveTimeout connQ 9 = (connQ, [Event.rejected 9 PErr.receiveTimeout]) :=
  ⟨((scp_c8_amended connQ).2.1 Json.null 0 nilIV
      ⟨List.replicate 32 0, List.replicate 32 0⟩ 7 [] rfl rfl rfl).1,
   (scp_c8_amended connQ).2.2 9⟩

/-! ### Claim theorems for the state machine -/

theorem closeConnection_state (c : Conn) :
    (closeConnection c).1.state = PState.closed := rfl

theorem handleProtoError_state (c : Conn) (e : PErr)
    (h : c.state = PState.closed) :
    (handleProtoError c e).1 = c := by
  simp [handleProtoError, h]

theorem handleProtoError_closes (c : Conn) (e : PErr) :
    (handleProtoError c e).1.state = PState.closed := by
  unfold handleProtoError
  by_cases h : c.state = PState.closed
  · simp [h]
  · simp [h, closeConnection]

theorem handleHandshakeResponse_noTransport (c : Conn) (p : Json)
    (now : Nat) (iv : List Nat) (hc : c.connection = false) :
    (handleHandshakeResponse c p now iv).2.2.isSome = true ∧
    (handleHandshakeResponse c p now iv).1.state = c.state := by
  unfold handleHandshakeResponse
  cases hkp : c.keyPair with
  | none =>
    cases hpk : jsonBytes (p.lookup publicKeyKey) <;> simp
  | some kp =>
    cases hpk : jsonBytes (p.lookup publicKeyKey) with
    | none => simp
    | some pk => simp [hc]

theorem handleDataMessage_noTransport (c : Conn) (p : Json) (now : Nat)
    (iv : List Nat) (hc : c.connection = false) :
    (handleDataMessage c p now iv).2.2.isSome = true ∧
    (handleDataMessage c p now iv).1.state = c.state := by
  unfold handleDataMessage
  cases hks : c.sessionKeys with
  | none => simp
  | some ks => simp [hc]

theorem handleAcknowledgment_pure (c : Conn) (p : Json) :
    (handleAcknowledgment c p).1.state = c.state ∧
    (handleAcknowledgment c p).1.remoteSequenceNumber = c.remoteSequenceNumber ∧
    (handleAcknowledgment c p).2.2 = none := by
  unfold handleAcknowledgment
  cases hlp : p.lookup sequenceNumberKey with
  | none => simp
  | some v =>
    cases v with
    | num i =>
      cases i with
      | ofNat k => cases hg : mapGet c.pendingRequests k <;> simp [hg]
      | negSucc k => simp
    | null => simp
    | bool b => simp
    | str s2 => simp
    | arr l => simp
    | obj o => simp

theorem handleHandshakeResponse_remoteSeq (c : Conn) (p : Json)
    (now : Nat) (iv : List Nat) :
    (handleHandshakeResponse c p now iv).1.remoteSequenceNumber =
      c.remoteSequenceNumber := by
  unfold handleHandshakeResponse
  cases hkp : c.keyPair with
  | none =>
    cases hpk : jsonBytes (p.lookup publicKeyKey) <;> simp
  | some kp =>
    cases hpk : jsonBytes (p.lookup publicKeyKey) with
    | none => simp
    | some pk => cases hc : c.connection <;> simp [hc]

theorem handleDataMessage_remoteSeq (c : Conn) (p : Json) (now : Nat)
    (iv : List Nat) :
    (handleDataMessage c p now iv).1.remoteSequenceNumber =
      c.remoteSequenceNumber := by
  unfold handleDataMessage
  cases hks : c.sessionKeys with
  | none => simp
  | some ks =>
    cases hc : c.connection with
    | false => simp
    | true => cases hq : c.messageQueue <;> simp [hq]

theorem handleProtoError_remoteSeq (c : Conn) (e : PErr) :
    (handleProtoError c e).1.remoteSequenceNumber = c.remoteSequenceNumber := by
  unfold handleProtoError closeConnection
  by_cases h : c.state = PState.closed <;> simp [h]

theorem processMessage_eq_dispatch (c : Conn) (buf : List Nat) (now : Nat)
    (iv : List Nat) (ks : SessionKeys) (h : MessageHeader) (payload : Json)
    (hks : c.sessionKeys = some ks)
    (hp : parseMessage buf ks.encryptionKey ks.hmacKey =
      Except.ok (h, payload))
    (hseq : c.remoteSequenceNumber < h.sequenceNumber) :
    processMessage c buf now iv =
      (match (dispatchMessage { c with remoteSequenceNumber := h.sequenceNumber }
          h payload now iv).2.2 with
       | none =>
         ((dispatchMessage { c with remoteSequenceNumber := h.sequenceNumber }
            h payload now iv).1,
          (dispatchMessage { c with remoteSequenceNumber := h.sequenceNumber }
            h payload now iv).2.1)
       | some e =>
         ((handleProtoError
            (dispatchMessage { c with remoteSequenceNumber := h.sequenceNumber }
              h payload now iv).1 e).1,
          (dispatchMessage { c with remoteSequenceNumber := h.sequenceNumber }
            h payload now iv).2.1 ++
          (handleProtoError
            (dispatchMessage { c with remoteSequenceNumber := h.sequenceNumber }
              h payload now iv).1 e).2)) := by
  unfold processMessage
  rw [hks]
  dsimp only
  rw [hp]
  dsimp only
  rw [if_neg (by omega)]
  rfl

theorem dispatchMessage_remoteSeq (c1 : Conn) (h : MessageHeader)
    (payload : Json) (now : Nat) (iv : List Nat) :
    (dispatchMessage c1 h payload now iv).1.remoteSequenceNumber =
      c1.remoteSequenceNumber := by
  unfold dispatchMessage
  by_cases h2 : h.messageType = 2
  · simp only [h2, if_pos]
    exact handleHandshakeResponse_remoteSeq _ _ _ _
  · by_cases h3 : h.messageType = 3
    · simp only [h2, h3, if_neg, if_pos, ite_false, ite_true]
      exact handleDataMessage_remoteSeq _ _ _ _
    · by_cases h4 : h.messageType = 4
      · simp only [h2, h3, h4, ite_false, ite_true]
        exact (handleAcknowledgment_pure _ _).2.1
      · by_cases h5 : h.messageType = 5
        · simp [h2, h3, h4, h5, handleClose, closeConnection]
        · simp [h2, h3, h4, h5]

/-- Inbound processing never leaves CLOSED once the transport is torn
down: every dispatch path either throws before reaching a state change
(the ACK send fails on the missing transport) or closes again. -/
theorem processMessage_closed (c : Conn) (buf : List Nat) (now : Nat)
    (iv : List Nat) (hs : c.state = PState.closed)
    (hc : c.connection = false) :
    (processMessage c buf now iv).1.state = PState.closed := by
  cases hks : c.sessionKeys with
  | none =>
    unfold processMessage
    rw [hks]
    dsimp only
    exact handleProtoError_closes c _
  | some ks =>
    cases hp : parseMessage buf ks.encryptionKey ks.hmacKey with
    | error e =>
      unfold processMessage
      rw [hks]
      dsimp only
      rw [hp]
      dsimp only
      exact handleProtoError_closes c _
    | ok r =>
      obtain ⟨h, payload⟩ := r
      by_cases hseq : h.sequenceNumber ≤ c.remoteSequenceNumber
      · unfold processMessage
        rw [hks]
        dsimp only
        rw [hp]
        dsimp only
        rw [if_pos hseq]
        exact handleProtoError_closes c _
      · rw [processMessage_eq_dispatch c buf now iv ks h payload hks hp (by omega)]
        set c1 : Conn := { c with remoteSequenceNumber := h.sequenceNumber }
          with hc1
        have hc1s : c1.state = PState.closed := hs
        have hc1c : c1.connection = false := hc
        cases hr : (dispatchMessage c1 h payload now iv).2.2 with
        | some e =>
          dsimp only
          exact handleProtoError_closes _ _
        | none =>
          dsimp only
          unfold dispatchMessage at hr ⊢
          by_cases h2 : h.messageType = 2
          · rw [if_pos h2] at hr
            exact absurd hr (by
              have := (handleHandshakeResponse_noTransport c1 payload now iv hc1c).1
              intro hnone
              rw [hnone] at this
              simp at this)
          · by_cases h3 : h.messageType = 3
            · rw [if_neg h2, if_pos h3] at hr
              rw [if_neg h2, if_pos h3]
              exact absurd hr (by
                have := (handleDataMessage_noTransport c1 payload now iv hc1c).1
                intro hnone
                rw [hnone] at this
                simp at this)
            · by_cases h4 : h.messageType = 4
              · rw [if_neg h2, if_neg h3, if_pos h4]
                rw [(handleAcknowledgment_pure c1 payload).1]
                exact hc1s
              · by_cases h5 : h.messageType = 5
                · rw [if_neg h2, if_neg h3, if_neg h4, if_pos h5]
                  rfl
                · rw [if_neg h2, if_neg h3, if_neg h4, if_neg h5] at hr
                  simp at hr

/-- C5, counterexample: `connect()` invoked on a CLOSED instance
re-enters the handshake and reaches CONNECTED — there is no reopening
guard. -/
theorem scp_c5_counterexample :
    connC.state = PState.closed ∧
    (connect connC none ([0], [0]) (List.replicate 32 0) nilIV 0).1.state =
      PState.connected :=
  ⟨rfl, rfl⟩

/-- C5 amended: for a CLOSED connection whose transport has been torn
down (as `close()` leaves it), `send`, `receive`, `close` and inbound
frame processing never move the state out of CLOSED; `connect()` however
performs no state check and reaches CONNECTED again. -/
theorem scp_c5_amended (c : Conn) (hs : c.state = PState.closed)
    (hc : c.connection = false) :
    (∀ buf now iv, (processMessage c buf now iv).1.state = PState.closed) ∧
    (∀ iv, close c iv = (c, [])) ∧
    (∀ m now iv, send c m now iv = (c, [], some PErr.invalidState)) ∧
    ((receive c).1.state = PState.closed) ∧
    (∀ kpArg freshKp tempKey iv now,
      (connect c kpArg freshKp tempKey iv now).1.state = PState.connected) := by
  refine ⟨fun buf now iv => processMessage_closed c buf now iv hs hc,
    fun iv => by simp [close, hs], ?_, ?_, ?_⟩
  · intro m now iv
    have : c.state ≠ PState.connected := by
      rw [hs]
      decide
    simp [send, this]
  · simp [receive, hs]
  · intro kpArg freshKp tempKey iv now
    unfold connect
    cases kpArg <;> cases hkp : c.keyPair <;> rfl

theorem scp_c5_witness :
    (processMessage connC [] 0 nilIV).1.state = PState.closed ∧
    close connC nilIV = (connC, []) :=
  ⟨(scp_c5_amended connC rfl rfl).1 [] 0 nilIV,
   (scp_c5_amended connC rfl rfl).2.1 nilIV⟩

theorem processMessage_remoteSeq (c : Conn) (buf : List Nat) (now : Nat)
    (iv : List Nat) :
    (processMessage c buf now iv).1.remoteSequenceNumber =
      (match acceptedOf c buf with
       | some s => s
       | none => c.remoteSequenceNumber) := by
  cases hks : c.sessionKeys with
  | none =>
    unfold processMessage acceptedOf
    rw [hks]
    dsimp only
    exact handleProtoError_remoteSeq c _
  | some ks =>
    cases hp : parseMessage buf ks.encryptionKey ks.hmacKey with
    | error e =>
      unfold processMessage acceptedOf
      rw [hks]
      dsimp only
      rw [hp]
      dsimp only
      exact handleProtoError_remoteSeq c _
    | ok r =>
      obtain ⟨h, payload⟩ := r
      by_cases hseq : h.sequenceNumber ≤ c.remoteSequenceNumber
      · have ha : acceptedOf c buf = none := by
          unfold acceptedOf
          rw [hks]
          dsimp only
          rw [hp]
          dsimp only
          rw [if_neg (by omega)]
        rw [ha]
        unfold processMessage
        rw [hks]
        dsimp only
        rw [hp]
        dsimp only
        rw [if_pos hseq]
        exact handleProtoError_remoteSeq c _
      · have ha : acceptedOf c buf = some h.sequenceNumber := by
          unfold acceptedOf
          rw [hks]
          dsimp only
          rw [hp]
          dsimp only
          rw [if_pos (by omega)]
        rw [ha]
        rw [processMessage_eq_dispatch c buf now iv ks h payload hks hp (by omega)]
        cases hr : (dispatchMessage { c with remoteSequenceNumber := h.sequenceNumber }
            h payload now iv).2.2 with
        | none =>
          dsimp only
          rw [dispatchMessage_remoteSeq]
        | some e =>
          dsimp only
          rw [handleProtoError_remoteSeq, dispatchMessage_remoteSeq]

theorem acceptedSeqs_chain (inputs : List (List Nat × Nat × List Nat)) :
    ∀ c : Conn, List.Chain' (· < ·) (acceptedSeqs c inputs) ∧
      (∀ x ∈ acceptedSeqs c inputs, c.remoteSequenceNumber < x) := by
  induction inputs with
  | nil =>
    intro c
    simp [acceptedSeqs]
  | cons inp rest ih =>
    intro c
    obtain ⟨buf, now, iv⟩ := inp
    have hstep := processMessage_remoteSeq c buf now iv
    have h1 := ih (processMessage c buf now iv).1
    cases ha : acceptedOf c buf with
    | none =>
      have hrs : (processMessage c buf now iv).1.remoteSequenceNumber =
          c.remoteSequenceNumber := by
        rw [hstep, ha]
      constructor
      · simpa [acceptedSeqs, ha] using h1.1
      · intro x hx
        simp only [acceptedSeqs, ha] at hx
        have := h1.2 x hx
        omega
    | some s0 =>
      have hrs : (processMessage c buf now iv).1.remoteSequenceNumber = s0 := by
        rw [hstep, ha]
      have hlt : c.remoteSequenceNumber < s0 := by
        unfold acceptedOf at ha
        cases hks : c.sessionKeys with
        | none =>
          rw [hks] at ha
          simp at ha
        | some ks =>
          rw [hks] at ha
          dsimp only at ha
          cases hp : parseMessage buf ks.encryptionKey ks.hmacKey with
          | error e =>
            rw [hp] at ha
            simp at ha
          | ok r =>
            obtain ⟨h, p⟩ := r
            rw [hp] at ha
            dsimp only at ha
            by_cases hq : c.remoteSequenceNumber < h.sequenceNumber
            · rw [if_pos hq] at ha
              have : h.sequenceNumber = s0 := by
                injection ha
              omega
            · rw [if_neg hq] at ha
              exact absurd ha (by simp)
      constructor
      · simp only [acceptedSeqs, ha]
        rw [List.chain'_cons']
        refine ⟨?_, h1.1⟩
        intro b hb
        have hmem : b ∈ acceptedSeqs (processMessage c buf now iv).1 rest :=
          List.mem_of_mem_head? hb
        have := h1.2 b hmem
        omega
      · intro x hx
        simp only [acceptedSeqs, ha, List.mem_cons] at hx
        cases hx with
        | inl hx =>
          omega
        | inr hx =>
          have := h1.2 x hx
          omega

/-- C2: Inbound sequence invariant — a decoded frame whose sequence
number is at most the stored remote counter is rejected through the
error path with SequenceError (the whole step IS the error handler, so
no per-type handler runs) and leaves the counter unchanged; an accepted
frame sets the counter to its sequence number; consequently the accepted
inbound sequence numbers of any run form a strictly increasing chain
(gaps allowed, repeats and reorders rejected). -/
theorem scp_c2 :
    (∀ c buf now iv ks h p, c.sessionKeys = some ks →
      parseMessage buf ks.encryptionKey ks.hmacKey = Except.ok (h, p) →
      h.sequenceNumber ≤ c.remoteSequenceNumber →
      processMessage c buf now iv = handleProtoError c PErr.sequenceError ∧
      (processMessage c buf now iv).1.remoteSequenceNumber =
        c.remoteSequenceNumber) ∧
    (∀ c buf now iv ks h p, c.sessionKeys = some ks →
      parseMessage buf ks.encryptionKey ks.hmacKey = Except.ok (h, p) →
      c.remoteSequenceNumber < h.sequenceNumber →
      (processMessage c buf now iv).1.remoteSequenceNumber =
        h.sequenceNumber) ∧
    (∀ (c : Conn) inputs, List.Chain' (· < ·) (acceptedSeqs c inputs)) := by
  refine ⟨?_, ?_, ?_⟩
  · intro c buf now iv ks h p hks hp hseq
    have he : processMessage c buf now iv =
        handleProtoError c PErr.sequenceError := by
      unfold processMessage
      rw [hks]
      dsimp only
      rw [hp]
      dsimp only
      rw [if_pos hseq]
    refine ⟨he, ?_⟩
    rw [he]
    exact handleProtoError_remoteSeq c _
  · intro c buf now iv ks h p hks hp hseq
    have hstep := processMessage_remoteSeq c buf now iv
    have ha : acceptedOf c buf = some h.sequenceNumber := by
      unfold acceptedOf
      rw [hks]
      dsimp only
      rw [hp]
      dsimp only
      rw [if_pos hseq]
    rw [hstep, ha]
  · intro c inputs
    exact (acceptedSeqs_chain inputs c).1

theorem scp_c2_witness :
    processMessage c2w
        (createMessage 3 5 Json.null (List.replicate 32 0)
          (List.replicate 32 0) nilIV) 0 nilIV =
      handleProtoError c2w PErr.sequenceError :=
  (scp_c2.1 c2w _ 0 nilIV ⟨List.replicate 32 0, List.replicate 32 0⟩
    ⟨1, 3, 5, (serJson Json.null).length⟩ Json.null rfl
    (parseMessage_createMessage 3 5 Json.null (List.replicate 32 0)
      (List.replicate 32 0) nilIV (by simp [nilIV]) (by norm_num)
      (by simp [serJson]))
    (by norm_num [c2w, connS])).1

end SCP
